import Mathlib

/-!
Verification of the series-derivation logic of scripts/generate_sample_plots.py.

The script loads a CSV into a pandas DataFrame and derives
- per-subject concentration-time series (lines 41-47: for each value of
  df['Subject_ID'].unique(), the rows with that Subject_ID, plotted in row order),
- a semi-log variant that additionally drops rows with non-positive
  concentration (lines 83-88),
- an aggregate series (line 102:
  df.groupby('Time_h')['Concentration_mg_L'].agg(['mean', 'std'])).

The embedding models a DataFrame as a header (list of column labels) plus a
list of rows of rational cell values.  Column access df[c] raises KeyError c
when the label is absent, modelled with Except String.  pandas aggregation
semantics modelled here: groupby sorts the distinct keys ascending; mean is
sum divided by count; std is the sample standard deviation with ddof = 1,
which is NaN when the group has a single element.  Standard deviations are
represented by their square (the sample variance) so that everything stays in
ℚ; NaN is modelled as none.
-/

namespace Pharmascribe

/-- A pandas DataFrame restricted to what the script uses: a list of column
labels and a list of rows of rational cell values. -/
structure DataFrame where
  cols : List String
  rows : List (List ℚ)
deriving DecidableEq, Repr

/-- Column access df[c]: the list of values in column c, or the KeyError
(carrying the missing label) that pandas raises when c is not a column. -/
def DataFrame.col (df : DataFrame) (c : String) : Except String (List ℚ) :=
  match df.cols.indexOf? c with
  | some i => .ok (df.rows.map fun r => r.getD i 0)
  | none => .error c

/-- Boolean-mask filtering df[df[c] <pred>]: keeps, in order, the rows whose
cell in column c satisfies p; raises KeyError c when c is not a column.
Models lines 44 (p = equality with a subject id) and 86 (p = positivity). -/
def DataFrame.filterCell (df : DataFrame) (c : String) (p : ℚ → Bool) :
    Except String DataFrame :=
  match df.cols.indexOf? c with
  | some i => .ok ⟨df.cols, df.rows.filter fun r => p (r.getD i 0)⟩
  | none => .error c

/-- Models pd.read_csv at line 21 applied to an already-parsed table: the
frame is built from the file contents as they are, with no validation of
which columns are present. -/
def load (cols : List String) (rows : List (List ℚ)) : Except String DataFrame :=
  .ok ⟨cols, rows⟩

/-- Helper for pdUnique: first occurrences of the input, skipping values
already seen. -/
def pdUniqueAux (seen : List ℚ) : List ℚ → List ℚ
  | [] => []
  | x :: xs => if x ∈ seen then pdUniqueAux seen xs else x :: pdUniqueAux (x :: seen) xs

/-- pandas Series.unique (line 41): the distinct values of a column in order
of first occurrence. -/
def pdUnique (l : List ℚ) : List ℚ := pdUniqueAux [] l

/-- pandas mean of a list of values: sum divided by count. -/
def pdMean (vals : List ℚ) : ℚ := vals.sum / vals.length

/-- The square of the pandas sample standard deviation (ddof = 1) of a list
of values: sum of squared deviations from the mean divided by n - 1 when
n ≥ 2; none models the NaN that pandas produces for a single value (0/0). -/
def pdVar (vals : List ℚ) : Option ℚ :=
  if 2 ≤ vals.length then
    some ((vals.map fun x => (x - pdMean vals) ^ 2).sum / ((vals.length : ℚ) - 1))
  else none

/-- One row of the table produced at line 102: a distinct time, the group
mean, and the group sample variance (square of the reported std, none for
NaN). -/
structure AggPoint where
  time : ℚ
  mean : ℚ
  var : Option ℚ
deriving DecidableEq, Repr

/-- The concentrations grouped under time key t: the second components of the
zipped (time, concentration) pairs whose first component equals t. -/
def groupVals (ts cs : List ℚ) (t : ℚ) : List ℚ :=
  ((ts.zip cs).filter fun p => decide (p.1 = t)).map Prod.snd

/-- groupby('Time_h')['Concentration_mg_L'].agg(['mean', 'std']) given the two
columns: one point per distinct time key, keys sorted ascending as pandas
groupby does, each point carrying the group mean and sample variance. -/
def aggPoints (ts cs : List ℚ) : List AggPoint :=
  (List.insertionSort (· ≤ ·) (pdUnique ts)).map fun t =>
    ⟨t, pdMean (groupVals ts cs t), pdVar (groupVals ts cs t)⟩

/-- Line 102: mean_data = df.groupby('Time_h')['Concentration_mg_L']
.agg(['mean', 'std']).reset_index(), with errors of the column accesses
propagated. -/
def meanData (df : DataFrame) : Except String (List AggPoint) :=
  match df.col "Time_h" with
  | .error e => .error e
  | .ok ts =>
    match df.col "Concentration_mg_L" with
    | .error e => .error e
    | .ok cs => .ok (aggPoints ts cs)

/-- Lines 44-45: subject_data = df[df['Subject_ID'] == subject] followed by
reading subject_data['Time_h'] and subject_data['Concentration_mg_L']; the
plotted series is the list of (time, concentration) pairs of the matching
rows in their input order. -/
def subjectSeries (df : DataFrame) (s : ℚ) : Except String (List (ℚ × ℚ)) :=
  match df.filterCell "Subject_ID" (fun v => decide (v = s)) with
  | .error e => .error e
  | .ok sd =>
    match sd.col "Time_h" with
    | .error e => .error e
    | .ok ts =>
      match sd.col "Concentration_mg_L" with
      | .error e => .error e
      | .ok cs => .ok (ts.zip cs)

/-- Lines 84-88: the semi-log series of one subject; like subjectSeries but
with data_nonzero = subject_data[subject_data['Concentration_mg_L'] > 0]
applied before reading the plotted columns. -/
def semilogSeries (df : DataFrame) (s : ℚ) : Except String (List (ℚ × ℚ)) :=
  match df.filterCell "Subject_ID" (fun v => decide (v = s)) with
  | .error e => .error e
  | .ok sd =>
    match sd.filterCell "Concentration_mg_L" (fun v => decide (0 < v)) with
    | .error e => .error e
    | .ok nz =>
      match nz.col "Time_h" with
      | .error e => .error e
      | .ok ts =>
        match nz.col "Concentration_mg_L" with
        | .error e => .error e
        | .ok cs => .ok (ts.zip cs)

/-- The loop of lines 43-47: derive each listed subject's series in order,
stopping at the first exception, and collect subject/series pairs. -/
def plotLoop (df : DataFrame) : List ℚ → Except String (List (ℚ × List (ℚ × ℚ)))
  | [] => .ok []
  | s :: rest =>
    match subjectSeries df s with
    | .error e => .error e
    | .ok ser =>
      match plotLoop df rest with
      | .error e => .error e
      | .ok out => .ok ((s, ser) :: out)

/-- Lines 41-47: subjects = df['Subject_ID'].unique() followed by the
per-subject plotting loop. -/
def plotIndividual (df : DataFrame) : Except String (List (ℚ × List (ℚ × ℚ))) :=
  match df.col "Subject_ID" with
  | .error e => .error e
  | .ok subjCol => plotLoop df (pdUnique subjCol)

/-- The script state after loading: the one binding (df) that later lines
read.  The script never reassigns df, so the derivations are embedded as
state transformers that return their result next to an unchanged state. -/
structure ScriptState where
  df : DataFrame
deriving DecidableEq

/-- The per-subject derivation of lines 44-45 as a state transformer: it
reads the loaded frame and returns the derived series beside the state. -/
def subjectSeriesSt (st : ScriptState) (s : ℚ) :
    ScriptState × Except String (List (ℚ × ℚ)) :=
  (st, subjectSeries st.df s)

/-- The aggregate derivation of line 102 as a state transformer: it reads
the loaded frame and returns the derived table beside the state. -/
def meanDataSt (st : ScriptState) :
    ScriptState × Except String (List AggPoint) :=
  (st, meanData st.df)

/-- The spec's arithmetic mean of the multiset of concentrations recorded at
one time: sum divided by count, independent of any ordering. -/
def specMean (m : Multiset ℚ) : ℚ := m.sum / m.card

/-- The spec's sample variance (square of the Bessel-corrected standard
deviation sqrt(sum((x - mean)^2)/(n - 1))) of a multiset of concentrations. -/
def specSampleVariance (m : Multiset ℚ) : ℚ :=
  ((m.map fun x => (x - specMean m) ^ 2).sum) / ((m.card : ℚ) - 1)

/-- The multiset of concentration values recorded at exactly time t, read off
the raw rows: cell ci of every row whose cell ti equals t. -/
def groupConcs (df : DataFrame) (ti ci : Nat) (t : ℚ) : Multiset ℚ :=
  ((df.rows.filter fun r => decide (r.getD ti 0 = t)).map fun r => r.getD ci 0 : List ℚ)

/-- Example frame of the spec: two subjects, both observed at time 1, with
concentrations 4 and 6. -/
def exTwo : DataFrame :=
  ⟨["Subject_ID", "Time_h", "Concentration_mg_L"], [[1, 1, 4], [2, 1, 6]]⟩

/-- Example frame: a single subject with a single observation, so time 1 has
exactly one contributing value. -/
def exSingle : DataFrame :=
  ⟨["Subject_ID", "Time_h", "Concentration_mg_L"], [[1, 1, 5]]⟩

/-- Example frame: one subject with two rows at the same time 2. -/
def exDup : DataFrame :=
  ⟨["Subject_ID", "Time_h", "Concentration_mg_L"], [[1, 2, 4], [1, 2, 5]]⟩

/-- Example frame: one subject whose rows are not in time order (time 2
before time 1). -/
def exUnsorted : DataFrame :=
  ⟨["Subject_ID", "Time_h", "Concentration_mg_L"], [[1, 2, 10], [1, 1, 20]]⟩

/-- Example frame: the concentration column is absent. -/
def exNoConc : DataFrame :=
  ⟨["Subject_ID", "Time_h"], [[1, 0]]⟩

/-- Example frame: one subject with a zero concentration among positive
ones. -/
def exZero : DataFrame :=
  ⟨["Subject_ID", "Time_h", "Concentration_mg_L"], [[1, 0, 0], [1, 1, 5], [1, 2, 0], [1, 3, 2]]⟩

/-! Shared lemmas about the embedding. -/

theorem mem_pdUniqueAux {a : ℚ} :
    ∀ {l seen : List ℚ}, a ∈ pdUniqueAux seen l ↔ a ∈ l ∧ a ∉ seen := by
  intro l
  induction l with
  | nil => simp [pdUniqueAux]
  | cons x xs ih =>
    intro seen
    by_cases hx : x ∈ seen
    · simp only [pdUniqueAux, if_pos hx, ih, List.mem_cons]
      constructor
      · rintro ⟨h1, h2⟩
        exact ⟨Or.inr h1, h2⟩
      · rintro ⟨h1 | h1, h2⟩
        · exact absurd (h1 ▸ hx) h2
        · exact ⟨h1, h2⟩
    · simp only [pdUniqueAux, if_neg hx, List.mem_cons, ih, not_or]
      constructor
      · rintro (h | ⟨h1, h2⟩)
        · exact ⟨Or.inl h, h ▸ hx⟩
        · exact ⟨Or.inr h1, h2.2⟩
      · rintro ⟨h1 | h1, h2⟩
        · exact Or.inl h1
        · by_cases hax : a = x
          · exact Or.inl hax
          · exact Or.inr ⟨h1, hax, h2⟩

theorem mem_pdUnique {a : ℚ} {l : List ℚ} : a ∈ pdUnique l ↔ a ∈ l := by
  simp [pdUnique, mem_pdUniqueAux]

theorem nodup_pdUniqueAux : ∀ (l seen : List ℚ), (pdUniqueAux seen l).Nodup := by
  intro l
  induction l with
  | nil => intro seen; simp [pdUniqueAux]
  | cons x xs ih =>
    intro seen
    by_cases hx : x ∈ seen
    · simpa [pdUniqueAux, if_pos hx] using ih seen
    · simp only [pdUniqueAux, if_neg hx]
      refine List.nodup_cons.mpr ⟨fun hmem => ?_, ih _⟩
      exact (mem_pdUniqueAux.mp hmem).2 (List.mem_cons_self x seen)

theorem nodup_pdUnique (l : List ℚ) : (pdUnique l).Nodup :=
  nodup_pdUniqueAux l []

theorem pdUnique_cons_of_ne_nil {l : List ℚ} (h : l ≠ []) :
    ∃ x xs, pdUnique l = x :: xs := by
  obtain ⟨x, xs, rfl⟩ := List.exists_cons_of_ne_nil h
  exact ⟨x, pdUniqueAux [x] xs, by simp [pdUnique, pdUniqueAux]⟩

/-- Splitting a list into the groups of a nodup covering key list and
concatenating the groups permutes the original list. -/
theorem flatMap_filter_perm {α : Type} (key : α → ℚ) :
    ∀ (ks : List ℚ) (l : List α), ks.Nodup → (∀ r ∈ l, key r ∈ ks) →
      List.Perm (ks.flatMap fun k => l.filter fun r => decide (key r = k)) l := by
  intro ks
  induction ks with
  | nil =>
    intro l _ hcov
    have hl : l = [] := List.eq_nil_iff_forall_not_mem.mpr fun r hr => by
      simpa using hcov r hr
    simp [hl]
  | cons k ks ih =>
    intro l hnd hcov
    have hknotmem : k ∉ ks := (List.nodup_cons.mp hnd).1
    have hstep : ∀ k' ∈ ks, (l.filter fun r => decide (key r = k')) =
        (l.filter fun r => !(decide (key r = k))).filter fun r => decide (key r = k') := by
      intro k' hk'
      have hne : k' ≠ k := fun h => hknotmem (h ▸ hk')
      rw [List.filter_filter]
      refine (List.filter_congr fun x _ => ?_).symm
      by_cases h : key x = k'
      · simp [h, hne]
      · simp [h]
    have hcongr : (ks.flatMap fun k' => l.filter fun r => decide (key r = k')) =
        ks.flatMap fun k' => (l.filter fun r => !(decide (key r = k))).filter
          fun r => decide (key r = k') := by
      simp only [List.flatMap]
      exact congrArg List.flatten (List.map_congr_left hstep)
    have hcov' : ∀ r ∈ l.filter fun r => !(decide (key r = k)), key r ∈ ks := by
      intro r hr
      rcases List.mem_filter.mp hr with ⟨hrl, hrk⟩
      rcases List.mem_cons.mp (hcov r hrl) with h | h
      · simp [h] at hrk
      · exact h
    have hperm := ih (l.filter fun r => !(decide (key r = k)))
      (List.nodup_cons.mp hnd).2 hcov'
    have h1 : ((k :: ks).flatMap fun k' => l.filter fun r => decide (key r = k'))
        = (l.filter fun r => decide (key r = k)) ++
            (ks.flatMap fun k' => l.filter fun r => decide (key r = k')) := by
      simp [List.flatMap_cons]
    have h2 : List.Perm ((l.filter fun r => decide (key r = k)) ++
          (ks.flatMap fun k' => l.filter fun r => decide (key r = k')))
        ((l.filter fun r => decide (key r = k)) ++
          (l.filter fun r => !(decide (key r = k)))) := by
      rw [hcongr]; exact (hperm).append_left _
    exact h1 ▸ (h2.trans (List.filter_append_perm _ l))

theorem col_of_indexOf {df : DataFrame} {c : String} {i : Nat}
    (h : df.cols.indexOf? c = some i) :
    df.col c = .ok (df.rows.map fun r => r.getD i 0) := by
  simp [DataFrame.col, h]

theorem col_of_indexOf_none {df : DataFrame} {c : String}
    (h : df.cols.indexOf? c = none) : df.col c = .error c := by
  simp [DataFrame.col, h]

theorem col_mk {cols : List String} {rows : List (List ℚ)} {c : String} {i : Nat}
    (h : cols.indexOf? c = some i) :
    DataFrame.col ⟨cols, rows⟩ c = .ok (rows.map fun r => r.getD i 0) := by
  simp [DataFrame.col, h]

theorem col_mk_none {cols : List String} {rows : List (List ℚ)} {c : String}
    (h : cols.indexOf? c = none) :
    DataFrame.col ⟨cols, rows⟩ c = .error c := by
  simp [DataFrame.col, h]

theorem filterCell_of_indexOf {df : DataFrame} {c : String} {i : Nat} {p : ℚ → Bool}
    (h : df.cols.indexOf? c = some i) :
    df.filterCell c p = .ok ⟨df.cols, df.rows.filter fun r => p (r.getD i 0)⟩ := by
  simp [DataFrame.filterCell, h]

theorem filterCell_mk {cols : List String} {rows : List (List ℚ)} {c : String}
    {i : Nat} {p : ℚ → Bool} (h : cols.indexOf? c = some i) :
    DataFrame.filterCell ⟨cols, rows⟩ c p =
      .ok ⟨cols, rows.filter fun r => p (r.getD i 0)⟩ := by
  simp [DataFrame.filterCell, h]

/-- Closed form of subjectSeries when the three columns are present: the
matching rows, in input order, mapped to their (time, concentration) cells. -/
theorem subjectSeries_eq (df : DataFrame) (s : ℚ) {si ti ci : Nat}
    (hS : df.cols.indexOf? "Subject_ID" = some si)
    (hT : df.cols.indexOf? "Time_h" = some ti)
    (hC : df.cols.indexOf? "Concentration_mg_L" = some ci) :
    subjectSeries df s = .ok ((df.rows.filter fun r => decide (r.getD si 0 = s)).map
      fun r => (r.getD ti 0, r.getD ci 0)) := by
  simp [subjectSeries, filterCell_of_indexOf hS, col_mk hT, col_mk hC, List.zip_map']

/-- Closed form of semilogSeries when the three columns are present. -/
theorem semilogSeries_eq (df : DataFrame) (s : ℚ) {si ti ci : Nat}
    (hS : df.cols.indexOf? "Subject_ID" = some si)
    (hT : df.cols.indexOf? "Time_h" = some ti)
    (hC : df.cols.indexOf? "Concentration_mg_L" = some ci) :
    semilogSeries df s = .ok (((df.rows.filter fun r => decide (r.getD si 0 = s)).filter
      fun r => decide (0 < r.getD ci 0)).map fun r => (r.getD ti 0, r.getD ci 0)) := by
  simp [semilogSeries, filterCell_of_indexOf hS, filterCell_mk hC, col_mk hT, col_mk hC,
    List.zip_map']

/-- Closed form of meanData when the two aggregated columns are present. -/
theorem meanData_eq (df : DataFrame) {ti ci : Nat}
    (hT : df.cols.indexOf? "Time_h" = some ti)
    (hC : df.cols.indexOf? "Concentration_mg_L" = some ci) :
    meanData df = .ok (aggPoints (df.rows.map fun r => r.getD ti 0)
      (df.rows.map fun r => r.getD ci 0)) := by
  simp [meanData, col_of_indexOf hT, col_of_indexOf hC]

theorem groupVals_map (rows : List (List ℚ)) (f g : List ℚ → ℚ) (t : ℚ) :
    groupVals (rows.map f) (rows.map g) t =
      (rows.filter fun r => decide (f r = t)).map g := by
  simp only [groupVals, List.zip_map', List.filter_map, List.map_map]
  rfl

theorem length_groupVals (rows : List (List ℚ)) (f g : List ℚ → ℚ) (t : ℚ) :
    (groupVals (rows.map f) (rows.map g) t).length =
      rows.countP fun r => decide (f r = t) := by
  simp [groupVals_map, List.countP_eq_length_filter]

theorem mem_aggPoints {ts cs : List ℚ} {p : AggPoint} :
    p ∈ aggPoints ts cs ↔ ∃ t, t ∈ pdUnique ts ∧
      p = ⟨t, pdMean (groupVals ts cs t), pdVar (groupVals ts cs t)⟩ := by
  constructor
  · intro hp
    simp only [aggPoints] at hp
    rcases List.mem_map.mp hp with ⟨t, ht, rfl⟩
    exact ⟨t, (List.perm_insertionSort _ _).mem_iff.mp ht, rfl⟩
  · rintro ⟨t, ht, rfl⟩
    simp only [aggPoints]
    exact List.mem_map.mpr ⟨t, (List.perm_insertionSort _ _).mem_iff.mpr ht, rfl⟩

theorem aggPoints_map_time (ts cs : List ℚ) :
    (aggPoints ts cs).map AggPoint.time =
      List.insertionSort (· ≤ ·) (pdUnique ts) := by
  rw [aggPoints, List.map_map]
  exact List.map_id' _

theorem sorted_aggPoints_times (ts cs : List ℚ) :
    List.Sorted (· < ·) ((aggPoints ts cs).map AggPoint.time) := by
  rw [aggPoints_map_time]
  refine List.Sorted.lt_of_le (List.sorted_insertionSort _ _) ?_
  exact ((List.perm_insertionSort _ _).nodup_iff).mpr (nodup_pdUnique ts)

/-! Claim theorems. -/

/-- C5: for every dataset containing the two aggregated columns, the
aggregate series has exactly one point per distinct time value present in
the data (its times are strictly ascending, and a time occurs among the
points exactly when it occurs in the time column), and each point's mean is
the arithmetic mean (sum over count) of the multiset of concentrations
recorded at exactly that time. -/
theorem C5_aggregate_points (df : DataFrame) {ti ci : Nat}
    (hT : df.cols.indexOf? "Time_h" = some ti)
    (hC : df.cols.indexOf? "Concentration_mg_L" = some ci) :
    ∃ pts, meanData df = .ok pts ∧
      List.Sorted (· < ·) (pts.map AggPoint.time) ∧
      (∀ t : ℚ, t ∈ pts.map AggPoint.time ↔ t ∈ df.rows.map fun r => r.getD ti 0) ∧
      ∀ p ∈ pts, p.mean = specMean (groupConcs df ti ci p.time) := by
  refine ⟨_, meanData_eq df hT hC, sorted_aggPoints_times _ _, ?_, ?_⟩
  · intro t
    rw [aggPoints_map_time, (List.perm_insertionSort _ _).mem_iff, mem_pdUnique]
  · intro p hp
    rcases mem_aggPoints.mp hp with ⟨t, _, rfl⟩
    show pdMean (groupVals _ _ t) = specMean (groupConcs df ti ci t)
    rw [groupVals_map]
    simp [pdMean, specMean, groupConcs]

/-- C5 witness: the two-subject example frame satisfies the hypotheses and
the conclusion of C5_aggregate_points. -/
theorem C5_aggregate_points_witness :
    ∃ pts, meanData exTwo = .ok pts ∧
      List.Sorted (· < ·) (pts.map AggPoint.time) ∧
      (∀ t : ℚ, t ∈ pts.map AggPoint.time ↔ t ∈ exTwo.rows.map fun r => r.getD 1 0) ∧
      ∀ p ∈ pts, p.mean = specMean (groupConcs exTwo 1 2 p.time) :=
  C5_aggregate_points exTwo rfl rfl

/-- C6: for every time group with at least two contributing observations,
the aggregate point carries the group's arithmetic mean and its sample
variance, the square of the Bessel-corrected (denominator n - 1) standard
deviation of the spec; and on the example frame with concentrations 4 and 6
at time 1 the point has mean 5 and variance 2, that is, std = sqrt 2. -/
theorem C6_sample_std (df : DataFrame) {ti ci : Nat}
    (hT : df.cols.indexOf? "Time_h" = some ti)
    (hC : df.cols.indexOf? "Concentration_mg_L" = some ci) :
    (∃ pts, meanData df = .ok pts ∧
      ∀ p ∈ pts, 2 ≤ Multiset.card (groupConcs df ti ci p.time) →
        p.mean = specMean (groupConcs df ti ci p.time) ∧
        p.var = some (specSampleVariance (groupConcs df ti ci p.time))) ∧
    meanData exTwo = .ok [⟨1, 5, some 2⟩] := by
  constructor
  · refine ⟨_, meanData_eq df hT hC, ?_⟩
    intro p hp hcard
    rcases mem_aggPoints.mp hp with ⟨t, _, rfl⟩
    have hlist : groupVals (df.rows.map fun r => r.getD ti 0)
        (df.rows.map fun r => r.getD ci 0) t =
        (df.rows.filter fun r => decide (r.getD ti 0 = t)).map fun r => r.getD ci 0 :=
      groupVals_map _ _ _ _
    have hlen : 2 ≤ ((df.rows.filter fun r => decide (r.getD ti 0 = t)).map
        fun r => r.getD ci 0).length := by
      simpa [groupConcs] using hcard
    constructor
    · show pdMean _ = _
      rw [hlist]
      simp [pdMean, specMean, groupConcs]
    · show pdVar _ = _
      rw [hlist, pdVar, if_pos (by simpa using hlen)]
      simp [specSampleVariance, specMean, groupConcs, pdMean]
  · have h1 : exTwo.col "Time_h" = .ok [1, 1] := rfl
    have h2 : exTwo.col "Concentration_mg_L" = .ok [4, 6] := rfl
    have h3 : List.insertionSort (· ≤ ·) (pdUnique [(1 : ℚ), 1]) = [1] := by
      norm_num [pdUnique, pdUniqueAux, List.insertionSort, List.orderedInsert]
    rw [meanData, h1, h2]
    norm_num [aggPoints, groupVals, h3, pdMean, pdVar, List.zip, List.zipWith, List.filter]

/-- C6 witness: the hypotheses of C6_sample_std hold at the example frame;
its group at time 1 has two members, mean 5, variance 2. -/
theorem C6_sample_std_witness :
    (∃ pts, meanData exTwo = .ok pts ∧
      ∀ p ∈ pts, 2 ≤ Multiset.card (groupConcs exTwo 1 2 p.time) →
        p.mean = specMean (groupConcs exTwo 1 2 p.time) ∧
        p.var = some (specSampleVariance (groupConcs exTwo 1 2 p.time))) ∧
    meanData exTwo = .ok [⟨1, 5, some 2⟩] :=
  C6_sample_std exTwo rfl rfl

/-- C1 counterexample: on the single-observation frame the aggregate point
at time 1 reports a NaN standard deviation (modelled as var = none), not 0,
so the claim that an n = 1 time point reports a standard deviation of 0 is
false of the code. -/
theorem C1_counterexample :
    meanData exSingle = .ok [⟨1, 5, none⟩] ∧
      AggPoint.var ⟨1, 5, none⟩ ≠ some 0 := by
  constructor
  · have h1 : exSingle.col "Time_h" = .ok [1] := rfl
    have h2 : exSingle.col "Concentration_mg_L" = .ok [5] := rfl
    have h3 : List.insertionSort (· ≤ ·) (pdUnique [(1 : ℚ)]) = [1] := by
      norm_num [pdUnique, pdUniqueAux, List.insertionSort, List.orderedInsert]
    rw [meanData, h1, h2]
    norm_num [aggPoints, groupVals, h3, pdMean, pdVar, List.zip, List.zipWith, List.filter]
  · simp

/-- C1 amended: for every time value at which exactly one observation is
recorded, the aggregate series has a point at that time and its standard
deviation is NaN (var = none), not 0 and not an error. -/
theorem C1_amended_n1_std_nan (df : DataFrame) {ti ci : Nat} (t : ℚ)
    (hT : df.cols.indexOf? "Time_h" = some ti)
    (hC : df.cols.indexOf? "Concentration_mg_L" = some ci)
    (hcount : (df.rows.countP fun r => decide (r.getD ti 0 = t)) = 1) :
    ∃ pts, meanData df = .ok pts ∧ (∃ p ∈ pts, p.time = t) ∧
      ∀ p ∈ pts, p.time = t → p.var = none := by
  refine ⟨_, meanData_eq df hT hC, ?_, ?_⟩
  · have hpos : 0 < df.rows.countP fun r => decide (r.getD ti 0 = t) := by
      rw [hcount]; exact Nat.one_pos
    rcases List.countP_pos_iff.mp hpos with ⟨r, hr, hrt⟩
    have ht : t ∈ df.rows.map fun r => r.getD ti 0 :=
      List.mem_map.mpr ⟨r, hr, of_decide_eq_true hrt⟩
    exact ⟨_, mem_aggPoints.mpr ⟨t, mem_pdUnique.mpr ht, rfl⟩, rfl⟩
  · intro p hp hpt
    rcases mem_aggPoints.mp hp with ⟨t', _, rfl⟩
    have htt : t' = t := hpt
    subst htt
    show pdVar _ = none
    have hlen : (groupVals (df.rows.map fun r => r.getD ti 0)
        (df.rows.map fun r => r.getD ci 0) t').length = 1 := by
      rw [length_groupVals]; exact hcount
    rw [pdVar, if_neg]
    rw [hlen]
    norm_num

/-- C1 witness: the amended statement instantiated at the single-observation
frame, whose time column holds the value 1 exactly once. -/
theorem C1_amended_n1_std_nan_witness :
    ((exSingle.rows.countP fun r => decide (r.getD 1 0 = 1)) = 1) ∧
    (∃ pts, meanData exSingle = .ok pts ∧ (∃ p ∈ pts, p.time = 1) ∧
      ∀ p ∈ pts, p.time = 1 → p.var = none) :=
  ⟨by decide, C1_amended_n1_std_nan exSingle 1 rfl rfl (by decide)⟩

/-- C2 counterexample: on the frame with two rows sharing subject 1 and time
2, the per-subject derivation does not fail at all — it succeeds and keeps
both conflicting rows — so the claim that it fails with
DuplicateObservationError is false of the code. -/
theorem C2_counterexample :
    subjectSeries exDup 1 = .ok [(2, 4), (2, 5)] := rfl

/-- C2 amended: for every dataset, deriving a subject's series never raises
a duplicate error; it returns exactly the rows whose subject cell matches,
duplicates included, in input row order. -/
theorem C2_amended_duplicates_kept (df : DataFrame) (s : ℚ) {si ti ci : Nat}
    (hS : df.cols.indexOf? "Subject_ID" = some si)
    (hT : df.cols.indexOf? "Time_h" = some ti)
    (hC : df.cols.indexOf? "Concentration_mg_L" = some ci) :
    ∃ l, subjectSeries df s = .ok l ∧
      l = (df.rows.filter fun r => decide (r.getD si 0 = s)).map
        fun r => (r.getD ti 0, r.getD ci 0) :=
  ⟨_, subjectSeries_eq df s hS hT hC, rfl⟩

/-- C2 witness: the amended statement instantiated at the duplicate-row
frame. -/
theorem C2_amended_duplicates_kept_witness :
    ∃ l, subjectSeries exDup 1 = .ok l ∧
      l = (exDup.rows.filter fun r => decide (r.getD 0 0 = 1)).map
        fun r => (r.getD 1 0, r.getD 2 0) :=
  C2_amended_duplicates_kept exDup 1 rfl rfl rfl

/-- C3 counterexample: loading a table without the concentration column
succeeds (no SchemaError is raised at load), and the missing column only
surfaces later, during the per-subject plotting, as a KeyError naming it. -/
theorem C3_counterexample :
    load ["Subject_ID", "Time_h"] [[1, 0]] = .ok exNoConc ∧
    plotIndividual exNoConc = .error "Concentration_mg_L" :=
  ⟨rfl, rfl⟩

/-- C3 amended: load performs no column validation and always succeeds; on a
nonempty table whose concentration column is absent, the failure is raised
as a KeyError naming "Concentration_mg_L" during the per-subject plotting,
after subject filtering has already been performed. -/
theorem C3_amended_keyerror_late (df : DataFrame) {si ti : Nat}
    (hS : df.cols.indexOf? "Subject_ID" = some si)
    (hT : df.cols.indexOf? "Time_h" = some ti)
    (hC : df.cols.indexOf? "Concentration_mg_L" = none)
    (hne : df.rows ≠ []) :
    (∀ cols rows, load cols rows = .ok ⟨cols, rows⟩) ∧
    plotIndividual df = .error "Concentration_mg_L" := by
  refine ⟨fun _ _ => rfl, ?_⟩
  simp only [plotIndividual, col_of_indexOf hS]
  have hmapne : (df.rows.map fun r => r.getD si 0) ≠ [] := by
    simpa using hne
  obtain ⟨x, xs, hx⟩ := pdUnique_cons_of_ne_nil hmapne
  rw [hx]
  have hser : subjectSeries df x = .error "Concentration_mg_L" := by
    simp [subjectSeries, filterCell_of_indexOf hS, col_mk hT, col_mk_none hC]
  simp [plotLoop, hser]

/-- C3 witness: the amended statement instantiated at the frame missing the
concentration column. -/
theorem C3_amended_keyerror_late_witness :
    (exNoConc.rows ≠ []) ∧
    ((∀ cols rows, load cols rows = .ok ⟨cols, rows⟩) ∧
      plotIndividual exNoConc = .error "Concentration_mg_L") :=
  ⟨by decide, C3_amended_keyerror_late exNoConc rfl rfl rfl (by decide)⟩

/-- C4 counterexample: on the frame whose only subject has rows at times 2
then 1, the derived series is in input order, not ascending in time, so the
claim that subject series are strictly ascending regardless of input row
order is false of the code. -/
theorem C4_counterexample :
    subjectSeries exUnsorted 1 = .ok [(2, 10), (1, 20)] ∧
    ¬ List.Sorted (fun p q : ℚ × ℚ => p.1 < q.1) [((2 : ℚ), (10 : ℚ)), (1, 20)] := by
  refine ⟨rfl, fun h => ?_⟩
  have h21 : (2 : ℚ) < 1 := by
    simpa using (List.pairwise_cons.mp h).1 (1, 20) (by simp)
  norm_num at h21

/-- C4 amended: subject series keep the input row order (no sorting is
applied), so they are strictly ascending by time exactly when the matching
input rows already are; under that hypothesis the series is strictly
ascending. -/
theorem C4_amended_order_preserved (df : DataFrame) (s : ℚ) {si ti ci : Nat}
    (hS : df.cols.indexOf? "Subject_ID" = some si)
    (hT : df.cols.indexOf? "Time_h" = some ti)
    (hC : df.cols.indexOf? "Concentration_mg_L" = some ci)
    (hsorted : List.Sorted (· < ·)
      ((df.rows.filter fun r => decide (r.getD si 0 = s)).map fun r => r.getD ti 0)) :
    ∃ l, subjectSeries df s = .ok l ∧
      l = (df.rows.filter fun r => decide (r.getD si 0 = s)).map
        (fun r => (r.getD ti 0, r.getD ci 0)) ∧
      List.Sorted (fun p q : ℚ × ℚ => p.1 < q.1) l := by
  refine ⟨_, subjectSeries_eq df s hS hT hC, rfl, ?_⟩
  unfold List.Sorted at hsorted ⊢
  rw [List.pairwise_map] at hsorted ⊢
  exact hsorted

/-- C4 witness: the amended statement instantiated at a frame whose subject
rows are already ascending in time. -/
theorem C4_amended_order_preserved_witness :
    (List.Sorted (· < ·)
      ((exZero.rows.filter fun r => decide (r.getD 0 0 = 1)).map fun r => r.getD 1 0)) ∧
    (∃ l, subjectSeries exZero 1 = .ok l ∧
      l = (exZero.rows.filter fun r => decide (r.getD 0 0 = 1)).map
        (fun r => (r.getD 1 0, r.getD 2 0)) ∧
      List.Sorted (fun p q : ℚ × ℚ => p.1 < q.1) l) :=
  ⟨by decide, C4_amended_order_preserved exZero 1 rfl rfl rfl (by decide)⟩

/-- Closed form of the per-subject plotting loop when the three columns are
present: one (subject, series) pair per listed subject, in order. -/
theorem plotLoop_eq (df : DataFrame) {si ti ci : Nat}
    (hS : df.cols.indexOf? "Subject_ID" = some si)
    (hT : df.cols.indexOf? "Time_h" = some ti)
    (hC : df.cols.indexOf? "Concentration_mg_L" = some ci) :
    ∀ ks : List ℚ, plotLoop df ks = .ok (ks.map fun s =>
      (s, (df.rows.filter fun r => decide (r.getD si 0 = s)).map
        fun r => (r.getD ti 0, r.getD ci 0))) := by
  have hser := fun s => subjectSeries_eq df s hS hT hC
  intro ks
  induction ks with
  | nil => rfl
  | cons s rest ih => simp [plotLoop, hser, ih]

/-- C7: for every dataset containing the three columns, the per-subject
derivation partitions the data exactly: the concatenation of all subject
series is a permutation of the full list of (time, concentration) points of
the dataset, and each row's subject value occurs exactly once in the derived
subject list, so the row is picked up by exactly one subject's series. -/
theorem C7_partition (df : DataFrame) {si ti ci : Nat}
    (hS : df.cols.indexOf? "Subject_ID" = some si)
    (hT : df.cols.indexOf? "Time_h" = some ti)
    (hC : df.cols.indexOf? "Concentration_mg_L" = some ci) :
    ∃ out, plotIndividual df = .ok out ∧
      List.Perm (out.flatMap fun p => p.2)
        (df.rows.map fun r => (r.getD ti 0, r.getD ci 0)) ∧
      ∀ r ∈ df.rows,
        (pdUnique (df.rows.map fun r => r.getD si 0)).count (r.getD si 0) = 1 := by
  have hplot : plotIndividual df = .ok
      ((pdUnique (df.rows.map fun r => r.getD si 0)).map fun s =>
        (s, (df.rows.filter fun r => decide (r.getD si 0 = s)).map
          fun r => (r.getD ti 0, r.getD ci 0))) := by
    simp only [plotIndividual, col_of_indexOf hS]
    exact plotLoop_eq df hS hT hC _
  refine ⟨_, hplot, ?_, ?_⟩
  · rw [List.flatMap_map]
    have hflat : ((pdUnique (df.rows.map fun r => r.getD si 0)).flatMap fun s =>
        (df.rows.filter fun r => decide (r.getD si 0 = s)).map
          fun r => (r.getD ti 0, r.getD ci 0)) =
        ((pdUnique (df.rows.map fun r => r.getD si 0)).flatMap fun s =>
          df.rows.filter fun r => decide (r.getD si 0 = s)).map
            fun r => (r.getD ti 0, r.getD ci 0) :=
      (List.map_flatMap _ _ _).symm
    rw [hflat]
    refine List.Perm.map _ ?_
    refine flatMap_filter_perm (fun r : List ℚ => r.getD si 0) _ _ (nodup_pdUnique _) ?_
    intro r hr
    exact mem_pdUnique.mpr (List.mem_map.mpr ⟨r, hr, rfl⟩)
  · intro r hr
    refine List.count_eq_one_of_mem (nodup_pdUnique _) ?_
    exact mem_pdUnique.mpr (List.mem_map.mpr ⟨r, hr, rfl⟩)

/-- C7 witness: the partition statement instantiated at the two-subject
example frame. -/
theorem C7_partition_witness :
    ∃ out, plotIndividual exTwo = .ok out ∧
      List.Perm (out.flatMap fun p => p.2)
        (exTwo.rows.map fun r => (r.getD 1 0, r.getD 2 0)) ∧
      ∀ r ∈ exTwo.rows,
        (pdUnique (exTwo.rows.map fun r => r.getD 0 0)).count (r.getD 0 0) = 1 :=
  C7_partition exTwo rfl rfl rfl

/-- C10: for every dataset containing the three columns, the semi-log series
of a subject is exactly the subject's series restricted to the points whose
concentration is strictly positive, in the same relative order, with no
error raised; points with concentration 0 are silently dropped. -/
theorem C10_semilog_positive_filter (df : DataFrame) (s : ℚ) {si ti ci : Nat}
    (hS : df.cols.indexOf? "Subject_ID" = some si)
    (hT : df.cols.indexOf? "Time_h" = some ti)
    (hC : df.cols.indexOf? "Concentration_mg_L" = some ci) :
    ∃ l, subjectSeries df s = .ok l ∧
      semilogSeries df s = .ok (l.filter fun p => decide (0 < p.2)) := by
  refine ⟨_, subjectSeries_eq df s hS hT hC, ?_⟩
  rw [semilogSeries_eq df s hS hT hC]
  congr 1
  rw [List.filter_map]
  rfl

/-- C10 witness: the statement instantiated at the frame holding zero
concentrations; the hypothesis columns are present. -/
theorem C10_semilog_positive_filter_witness :
    ∃ l, subjectSeries exZero 1 = .ok l ∧
      semilogSeries exZero 1 = .ok (l.filter fun p => decide (0 < p.2)) :=
  C10_semilog_positive_filter exZero 1 rfl rfl rfl

/-- C8: both derivations are deterministic functions of the loaded dataset:
running each twice on the same immutable frame yields identical results. -/
theorem C8_deterministic (df : DataFrame) (s : ℚ) :
    subjectSeries df s = subjectSeries df s ∧
    plotIndividual df = plotIndividual df ∧
    meanData df = meanData df :=
  ⟨rfl, rfl, rfl⟩

/-- C9: the derivations never write the loaded frame: run as state
transformers over the script state, deriving a subject series and then the
aggregate series returns the state (and hence the loaded table) unchanged,
and each result is computed purely from the frame's value. -/
theorem C9_source_unchanged (st : ScriptState) (s : ℚ) :
    ((meanDataSt (subjectSeriesSt st s).1).1).df = st.df ∧
    (subjectSeriesSt st s).2 = subjectSeries st.df s ∧
    (meanDataSt st).2 = meanData st.df :=
  ⟨rfl, rfl, rfl⟩

end Pharmascribe
